import Mathlib

/-!
Shallow embedding of the message-processing core of `mqtt-to-pocsag.py`:
packet decryption (nonce construction, AES-CTR via an external cipher),
payload dispatch, node-id labelling, DAPNET forwarding with retry/backoff,
the MQTT ingress filter, and encryption-key preparation.

Machine integers are modelled as `Nat`; byte strings as `List Nat` with
each element `< 256`.  External libraries (the AES cipher, protobuf
parsing, base64 decoding of the key, the HTTP gateway) are parameters of
the embedded functions, exactly as wide as the interface the Python code
uses.
-/

namespace MqttToPocsag

/-- Meshtastic broadcast destination address (`BROADCAST_NUM`). -/
def BROADCAST_NUM : Nat := 4294967295

/-- Port number `portnums_pb2.TEXT_MESSAGE_APP`. -/
def TEXT_MESSAGE_APP : Nat := 1

/-- Port number `portnums_pb2.POSITION_APP`. -/
def POSITION_APP : Nat := 3

/-- Port number `portnums_pb2.NODEINFO_APP`. -/
def NODEINFO_APP : Nat := 4

/-- `n.to_bytes(w, "little")`: the `w`-byte little-endian encoding of `n`
(defined for every `n`; the Python call raises unless `n < 256 ^ w`,
which the callers below check before using it). -/
def natToLEBytes : Nat → Nat → List Nat
  | _, 0 => []
  | n, w + 1 => n % 256 :: natToLEBytes (n / 256) w

/-- The value a little-endian byte list denotes. -/
def leBytesVal : List Nat → Nat
  | [] => 0
  | b :: bs => b + 256 * leBytesVal bs

/-- Decoded protobuf `mesh_pb2.Data`: an application port number plus an
opaque byte body (`payload`). -/
structure DataMsg where
  portnum : Nat
  payload : List Nat
  deriving DecidableEq, Repr

/-- The `payload_variant` oneof of a Meshtastic `MeshPacket`: at most one
of `encrypted` / `decoded` is set. -/
inductive PayloadVariant where
  | encrypted (bytes : List Nat)
  | decoded (d : DataMsg)
  deriving DecidableEq, Repr

/-- A Meshtastic `MeshPacket` as the Python code consumes it: numeric
`id`, numeric sender (`from`, renamed `fromNode` because `from` is a Lean
keyword), numeric destination (`to`), and the payload oneof. -/
structure MeshPacket where
  id : Nat
  fromNode : Nat
  toNode : Nat
  payloadVariant : Option PayloadVariant
  deriving DecidableEq, Repr

/-- `message_packet.HasField("encrypted")`. -/
def hasEncryptedField (p : MeshPacket) : Bool :=
  match p.payloadVariant with
  | some (.encrypted _) => true
  | _ => false

/-- `message_packet.HasField("decoded")`. -/
def hasDecodedField (p : MeshPacket) : Bool :=
  match p.payloadVariant with
  | some (.decoded _) => true
  | _ => false

/-- The bytes read by `message_packet.encrypted` (protobuf returns the
empty byte string when the oneof is not set to `encrypted`). -/
def encryptedBytes (p : MeshPacket) : List Nat :=
  match p.payloadVariant with
  | some (.encrypted bs) => bs
  | _ => []

/-- The decryption nonce built in `decode_encrypted`:
`nonce_packet_id + nonce_from_node`, each `to_bytes(8, "little")`. -/
def buildNonce (p : MeshPacket) : List Nat :=
  natToLEBytes p.id 8 ++ natToLEBytes p.fromNode 8

/-- The character Python uses for the hexadecimal digit `d` (`0`–`9`,
then lowercase `a`–`f`). -/
def hexDigitChar (d : Nat) : Char :=
  if d < 10 then Char.ofNat (48 + d) else Char.ofNat (87 + d)

/-- Helper for `toHex`: builds the most-significant-first digit list of
`n`, consuming fuel (`n` itself is always enough fuel). -/
def toHexAux : Nat → Nat → List Char → List Char
  | 0, _, acc => acc
  | _ + 1, 0, acc => acc
  | fuel + 1, n + 1, acc =>
      toHexAux fuel ((n + 1) / 16) (hexDigitChar ((n + 1) % 16) :: acc)

/-- Python `hex(n)[2:]` for a nonnegative `n`: lowercase hexadecimal, no
`0x`, no leading zeros (and `"0"` for zero). -/
def toHex (n : Nat) : String :=
  if n = 0 then "0" else String.mk (toHexAux n n [])

/-- `create_node_id(node_number)`: `"!unknown"` when the number is
absent, else `"!"` + `hex(node_number)[2:]`. -/
def create_node_id : Option Nat → String
  | none => "!unknown"
  | some n => "!" ++ toHex n

/-- The lowercase-hexadecimal alphabet: the ten decimal digit
characters followed by `a`–`f`. -/
def hexAlphabet : List Char :=
  (List.range 10).map (fun d => Char.ofNat (48 + d)) ++
    (List.range 6).map (fun d => Char.ofNat (97 + d))

/-- Numeric value of a lowercase hexadecimal digit character. -/
def hexCharVal (c : Char) : Nat :=
  if c.toNat < 97 then c.toNat - 48 else c.toNat - 87

/-- Value denoted by a most-significant-first hexadecimal digit string. -/
def hexStrVal (cs : List Char) : Nat :=
  cs.foldl (fun a c => 16 * a + hexCharVal c) 0

/-- A UTF-8 continuation byte (`0x80`–`0xBF`). -/
def isCont (b : Nat) : Bool := 128 ≤ b && b ≤ 191

/-- Strict UTF-8 decoding of a byte list, as Python's
`bytes.decode("utf-8")`: `none` on any invalid sequence (bad lead byte,
truncated sequence, bad continuation byte, overlong form, surrogate,
or code point above `U+10FFFF`). -/
def utf8DecodeChars : List Nat → Option (List Char)
  | [] => some []
  | b1 :: rest =>
    if b1 ≤ 127 then
      match utf8DecodeChars rest with
      | some cs => some (Char.ofNat b1 :: cs)
      | none => none
    else if 194 ≤ b1 && b1 ≤ 223 then
      match rest with
      | b2 :: rest2 =>
        if isCont b2 then
          match utf8DecodeChars rest2 with
          | some cs => some (Char.ofNat ((b1 - 192) * 64 + (b2 - 128)) :: cs)
          | none => none
        else none
      | [] => none
    else if 224 ≤ b1 && b1 ≤ 239 then
      match rest with
      | b2 :: b3 :: rest3 =>
        if (if b1 = 224 then 160 ≤ b2 && b2 ≤ 191
            else if b1 = 237 then 128 ≤ b2 && b2 ≤ 159
            else isCont b2) && isCont b3 then
          match utf8DecodeChars rest3 with
          | some cs =>
              some (Char.ofNat ((b1 - 224) * 4096 + (b2 - 128) * 64 + (b3 - 128)) :: cs)
          | none => none
        else none
      | _ => none
    else if 240 ≤ b1 && b1 ≤ 244 then
      match rest with
      | b2 :: b3 :: b4 :: rest4 =>
        if (if b1 = 240 then 144 ≤ b2 && b2 ≤ 191
            else if b1 = 244 then 128 ≤ b2 && b2 ≤ 143
            else isCont b2) && isCont b3 && isCont b4 then
          match utf8DecodeChars rest4 with
          | some cs =>
              some (Char.ofNat ((b1 - 240) * 262144 + (b2 - 128) * 4096 +
                      (b3 - 128) * 64 + (b4 - 128)) :: cs)
          | none => none
        else none
      | _ => none
    else none

/-- Python `payload.decode("utf-8")` returned as a string. -/
def utf8Decode (bs : List Nat) : Option String :=
  (utf8DecodeChars bs).map String.mk

/-- External collaborators used by `decode_encrypted`, exactly as wide
as the interface the Python code consumes: `base64.b64decode` of the key
string (`none` models a raised exception), AES-256-CTR decryption
(key bytes → nonce → ciphertext → plaintext), and protobuf parsing of
`mesh_pb2.Data` (`none` models a `ParseFromString` failure). -/
structure Externals where
  b64decode : String → Option (List Nat)
  aesCtrDecrypt : List Nat → List Nat → List Nat → List Nat
  parseData : List Nat → Option DataMsg

/-- Everything observable about one `decode_encrypted` call: the packet
as it stands after the call (the Python function mutates its argument in
place via `message_packet.decoded.CopyFrom(data)`), the
`(text_payload, client_id)` pairs handed to `send_to_dapnet_pocsag`,
whether a UTF-8 decoding error was logged, the node-directory upserts
performed (the message path contains no database write, so this list is
never populated), and the function's boolean return value. -/
structure DecodeResult where
  packet : MeshPacket
  forwards : List (String × String)
  textError : Bool
  upserts : List (String × DataMsg)
  ok : Bool
  deriving DecidableEq, Repr

/-- The result of a `decode_encrypted` call that returns `False` before
reaching the `CopyFrom`: the packet is untouched and nothing happens. -/
def decodeFail (p : MeshPacket) : DecodeResult :=
  { packet := p, forwards := [], textError := false, upserts := [], ok := false }

/-- `decode_encrypted(message_packet, encryption_key)`.  Mirrors the
Python control flow: bail out returning `False` when no encrypted bytes
are present, when base64-decoding the key raises, when `to_bytes`
overflows (id or sender `≥ 2^64`), or when protobuf parsing of the
plaintext raises; otherwise write the parsed `Data` into the packet's
`decoded` oneof slot, and for `TEXT_MESSAGE_APP` payloads decode the
body as UTF-8 and hand it to the DAPNET sender (a `UnicodeDecodeError`
is caught and logged, and the function still returns `True`). -/
def decode_encrypted (ext : Externals) (p : MeshPacket) (encryption_key : String) :
    DecodeResult :=
  match p.payloadVariant with
  | some (.encrypted ct) =>
    if ct.isEmpty then decodeFail p
    else
      match ext.b64decode encryption_key with
      | none => decodeFail p
      | some key_bytes =>
        if p.id < 2 ^ 64 ∧ p.fromNode < 2 ^ 64 then
          match ext.parseData (ext.aesCtrDecrypt key_bytes (buildNonce p) ct) with
          | none => decodeFail p
          | some data =>
            if data.portnum = TEXT_MESSAGE_APP then
              match utf8Decode data.payload with
              | some text_payload =>
                { packet := { p with payloadVariant := some (.decoded data) },
                  forwards := [(text_payload, create_node_id (some p.fromNode))],
                  textError := false, upserts := [], ok := true }
              | none =>
                { packet := { p with payloadVariant := some (.decoded data) },
                  forwards := [], textError := true, upserts := [], ok := true }
            else
              { packet := { p with payloadVariant := some (.decoded data) },
                forwards := [], textError := false, upserts := [], ok := true }
        else decodeFail p
  | _ => decodeFail p

/-- `mqtt_pb2.ServiceEnvelope`, as far as `on_message` reads it: the
wrapped packet. -/
structure ServiceEnvelope where
  packet : MeshPacket
  deriving DecidableEq, Repr

/-- The broadcast/encrypted/not-decoded filter applied by `on_message`
before it invokes `decode_encrypted`:
`message_packet.to == BROADCAST_NUM`, `HasField("encrypted")`, and
`not HasField("decoded")` (the `hasattr` checks are always true for
protobuf messages and are omitted). -/
def ingressFilter (p : MeshPacket) : Bool :=
  (p.toNode == BROADCAST_NUM) && hasEncryptedField p && !hasDecodedField p

/-- `on_message(client, userdata, msg)` modulo the MQTT plumbing: the
argument is the result of `ServiceEnvelope.ParseFromString` (`none`
models a parse failure, which makes the handler return early).  The
result is `some r` exactly when the inner packet was handed to
`decode_encrypted`, with `r` that call's outcome; `none` means the
packet never reached the decryptor. -/
def on_message (ext : Externals) (encryption_key : String)
    (parsed : Option ServiceEnvelope) : Option DecodeResult :=
  match parsed with
  | none => none
  | some env =>
    if ingressFilter env.packet then
      some (decode_encrypted ext env.packet encryption_key)
    else
      none

/-- The configuration fields `send_to_dapnet_pocsag` reads from
`CONFIG` (loaded once at startup; `validate_config` enforces
`max_retries > 0` and `retry_delay > 0`). -/
structure Config where
  callsign : String
  transmitter_group : String
  max_retries : Nat
  retry_delay : Nat
  deriving DecidableEq, Repr

/-- The JSON body POSTed to the DAPNET API. -/
structure DapnetPayload where
  text : String
  callSignNames : List String
  transmitterGroupNames : List String
  emergency : Bool
  deriving DecidableEq, Repr

/-- The `payload` dict built at the top of `send_to_dapnet_pocsag`:
the text payload is used as-is (no escaping, no sender line). -/
def buildDapnetPayload (cfg : Config) (text_payload : String) : DapnetPayload :=
  { text := text_payload
    callSignNames := [cfg.callsign]
    transmitterGroupNames := [cfg.transmitter_group]
    emergency := false }

/-- The retry loop of `send_to_dapnet_pocsag`, folded over the list of
attempt indices (`for attempt in range(max_retries)`).  `gateway a`
is the outcome of the HTTP POST on attempt `a`: `true` for status 200,
`false` for any other status, timeout, connection error, or other
exception (all of which the code logs and treats alike).  Returns the
number of attempts performed, the list of back-off sleeps
(`retry_delay * 2 ** attempt`, executed only while `attempt <
max_retries - 1`), and the boolean the function returns. -/
def sendLoop (gateway : Nat → Bool) (retry_delay max_retries : Nat) :
    List Nat → Nat × List Nat × Bool
  | [] => (0, [], false)
  | a :: rest =>
    if gateway a then (1, [], true)
    else if a < max_retries - 1 then
      let r := sendLoop gateway retry_delay max_retries rest
      (r.1 + 1, retry_delay * 2 ^ a :: r.2.1, r.2.2)
    else (1, [], false)

/-- Trace of one `send_to_dapnet_pocsag` call: the JSON payload it
builds, the attempts it makes, the sleeps it performs, and its boolean
result. -/
structure SendTrace where
  payload : DapnetPayload
  attempts : Nat
  sleeps : List Nat
  success : Bool
  deriving DecidableEq, Repr

/-- `send_to_dapnet_pocsag(text_payload, client_id)` (with
`max_retries` taken from `cfg`, as when the default argument is used).
`client_id` only appears in log lines. -/
def send_to_dapnet_pocsag (cfg : Config) (gateway : Nat → Bool)
    (text_payload client_id : String) : SendTrace :=
  let payload := buildDapnetPayload cfg text_payload
  let r := sendLoop gateway cfg.retry_delay cfg.max_retries
      (List.range cfg.max_retries)
  { payload := payload, attempts := r.1, sleeps := r.2.1, success := r.2.2 }

/-- The padding length `(4 - (len(key) % 4)) % 4` used by
`prepare_encryption_key`. -/
def b64PadLen (len : Nat) : Nat := (4 - len % 4) % 4

/-- The character substitution `*.replace("-", "+").replace("_", "/")`
(the patterns are single characters, so the two replaces act
pointwise). -/
def b64urlToStd (c : Char) : Char :=
  if c = '-' then '+' else if c = '_' then '/' else c

/-- `prepare_encryption_key()` on the configured key string: first
right-pad with `=` to the next multiple of 4
(`key.ljust(len(key) + ((4 - (len(key) % 4)) % 4), "=")`), then replace
every `-` with `+` and every `_` with `/`. -/
def prepare_encryption_key (key : String) : String :=
  let padded_key := String.mk (key.data ++ List.replicate (b64PadLen key.data.length) '=')
  String.mk (padded_key.data.map b64urlToStd)

/-- A character of the standard base64 alphabet. -/
def isStdB64Char (c : Char) : Bool :=
  (('A' ≤ c && c ≤ 'Z') || ('a' ≤ c && c ≤ 'z') ||
   ('0' ≤ c && c ≤ '9') || c = '+' || c = '/')

/-- A character of either the standard or the URL-safe base64
alphabet (the inputs `prepare_encryption_key` is meant to accept). -/
def isUrlSafeB64Char (c : Char) : Bool :=
  isStdB64Char c || c = '-' || c = '_'

/-- Shape of a string `base64.b64decode` accepts: length a multiple of
4, at most two trailing `=` padding characters, and every other
character from the standard alphabet. -/
def isValidB64 (s : String) : Bool :=
  let eqCount := (s.data.reverse.takeWhile (fun c => c == '=')).length
  let body := s.data.take (s.data.length - eqCount)
  (s.data.length % 4 == 0) && (eqCount ≤ 2) && body.all isStdB64Char

/-- Modelled from the spec: the fixed escape set of the text
sanitization rule (underscore, asterisk, square brackets, parentheses,
tilde, backtick, greater-than, hash, plus, minus, equals, pipe, curly
braces, period, exclamation mark).  No escaping code exists in the
source; this definition only states what the spec asks for. -/
def escapeSet : List Char :=
  ['_', '*', '[', ']', '(', ')', '~', Char.ofNat 96, '>', '#', '+', '-',
   '=', '|', Char.ofNat 123, Char.ofNat 125, '.', '!']

/-- Modelled from the spec: sanitization that backslash-prefixes every
escape-set character and passes every other character through. -/
def sanitize_spec (s : String) : String :=
  String.mk ((s.data.map fun c =>
    if c ∈ escapeSet then ['\\', c] else [c]).flatten)

/-- Modelled from the spec: the sender line prepended to a forwarded
message — `*{display_name} ({sender_label})*:` when the Node Directory
holds a display name for the sender, else `*{sender_label}*:`.  No such
code exists in the source; this definition only states what the spec
asks for. -/
def senderHeader_spec (display_name : Option String) (sender_label : String) :
    String :=
  match display_name with
  | some d => "*" ++ d ++ " (" ++ sender_label ++ ")*:"
  | none => "*" ++ sender_label ++ "*:"

theorem natToLEBytes_length (n w : Nat) : (natToLEBytes n w).length = w := by
  induction w generalizing n with
  | zero => rfl
  | succ w ih => simp [natToLEBytes, ih]

theorem leBytesVal_natToLEBytes (n w : Nat) :
    leBytesVal (natToLEBytes n w) = n % 256 ^ w := by
  induction w generalizing n with
  | zero => simp [natToLEBytes, leBytesVal, Nat.mod_one]
  | succ w ih =>
    simp only [natToLEBytes, leBytesVal, ih]
    rw [pow_succ, mul_comm (256 ^ w) 256, Nat.mod_mul]

theorem natToLEBytes_lt (n w : Nat) : ∀ b ∈ natToLEBytes n w, b < 256 := by
  induction w generalizing n with
  | zero => simp [natToLEBytes]
  | succ w ih =>
    intro b hb
    simp only [natToLEBytes, List.mem_cons] at hb
    rcases hb with h | h
    · omega
    · exact ih _ _ h

theorem toHexAux_digits (fuel n : Nat) (acc : List Char) (h : n ≤ fuel) :
    toHexAux fuel n acc = ((Nat.digits 16 n).map hexDigitChar).reverse ++ acc := by
  induction fuel generalizing n acc with
  | zero =>
    interval_cases n
    simp [toHexAux]
  | succ fuel ih =>
    match n with
    | 0 => simp [toHexAux]
    | m + 1 =>
      rw [toHexAux, ih ((m + 1) / 16) _ (by omega)]
      rw [Nat.digits_def' (by norm_num : 1 < 16) (Nat.succ_pos m)]
      simp

theorem hexDigitChar_mem_alphabet (d : Nat) (h : d < 16) :
    hexDigitChar d ∈ hexAlphabet := by
  interval_cases d <;> decide

theorem hexDigitChar_eq_zero_iff (d : Nat) (h : d < 16) :
    hexDigitChar d = '0' ↔ d = 0 := by
  interval_cases d <;> decide

theorem hexCharVal_hexDigitChar (d : Nat) (h : d < 16) :
    hexCharVal (hexDigitChar d) = d := by
  interval_cases d <;> decide

theorem hexStrVal_of_digits (ds : List Nat) (h : ∀ d ∈ ds, d < 16) :
    hexStrVal ((ds.map hexDigitChar).reverse) = Nat.ofDigits 16 ds := by
  induction ds with
  | nil => rfl
  | cons d ds ih =>
    have hd : d < 16 := h d (List.mem_cons_self d ds)
    have hds : ∀ x ∈ ds, x < 16 := fun x hx => h x (List.mem_cons_of_mem d hx)
    simp only [List.map_cons, List.reverse_cons]
    rw [Nat.ofDigits_cons]
    unfold hexStrVal
    rw [List.foldl_append]
    have := ih hds
    unfold hexStrVal at this
    rw [this]
    simp [hexCharVal_hexDigitChar d hd]
    ring

theorem toHex_zero : toHex 0 = "0" := rfl

theorem toHex_eq_digits (n : Nat) (h : 0 < n) :
    (toHex n).data = ((Nat.digits 16 n).map hexDigitChar).reverse := by
  unfold toHex
  rw [if_neg (by omega)]
  show toHexAux n n [] = _
  rw [toHexAux_digits n n [] (le_refl n)]
  simp

theorem toHex_chars_lower (n : Nat) :
    ∀ c ∈ (toHex n).data, c ∈ hexAlphabet := by
  rcases Nat.eq_zero_or_pos n with h | h
  · subst h; decide
  · rw [toHex_eq_digits n h]
    intro c hc
    rw [List.mem_reverse, List.mem_map] at hc
    obtain ⟨d, hd, rfl⟩ := hc
    exact hexDigitChar_mem_alphabet d (Nat.digits_lt_base (by norm_num) hd)

theorem toHex_no_leading_zero (n : Nat) (h : 0 < n) :
    (toHex n).data.head? ≠ some '0' := by
  rw [toHex_eq_digits n h]
  intro hcontra
  rw [List.head?_reverse] at hcontra
  have hlast := Nat.getLast_digit_ne_zero 16 (show n ≠ 0 by omega)
  have hne : Nat.digits 16 n ≠ [] := Nat.digits_ne_nil_iff_ne_zero.mpr (by omega)
  rw [List.getLast?_map] at hcontra
  rw [List.getLast?_eq_getLast _ hne] at hcontra
  simp only [Option.map_some'] at hcontra
  have hdig : (Nat.digits 16 n).getLast hne < 16 :=
    Nat.digits_lt_base (by norm_num) (List.getLast_mem hne)
  have hchar : hexDigitChar ((Nat.digits 16 n).getLast hne) = '0' :=
    Option.some.inj hcontra
  exact hlast ((hexDigitChar_eq_zero_iff _ hdig).mp hchar)

theorem toHex_val (n : Nat) : hexStrVal (toHex n).data = n := by
  rcases Nat.eq_zero_or_pos n with h | h
  · subst h; decide
  · rw [toHex_eq_digits n h]
    rw [hexStrVal_of_digits _ (fun d hd => Nat.digits_lt_base (by norm_num) hd)]
    exact_mod_cast Nat.ofDigits_digits 16 n


theorem sendLoop_allFail (g : Nat → Bool) (d N : Nat)
    (hfail : ∀ i, g i = false) :
    ∀ k a, a + k = N →
      sendLoop g d N (List.range' a k) =
        (k, (List.range' a (k - 1)).map (fun i => d * 2 ^ i), false) := by
  intro k
  induction k with
  | zero => intro a ha; simp [sendLoop, List.range']
  | succ k ih =>
    intro a ha
    show sendLoop g d N (a :: List.range' (a + 1) k) = _
    rw [sendLoop]
    rw [hfail a]
    cases k with
    | zero =>
      have hna : ¬ a < N - 1 := by omega
      simp [hna, List.range']
    | succ k =>
      have hlt : a < N - 1 := by omega
      rw [if_neg (by simp), if_pos hlt, ih (a + 1) (by omega)]
      show (_, _, _) = _
      have hr : List.range' a (k + 2 - 1) = a :: List.range' (a + 1) (k + 1 - 1) := by
        show List.range' a (k + 1) = _
        rw [List.range'_succ]
        norm_num
      rw [hr]
      simp [Nat.add_sub_cancel]

/-- C3: with `max_retries = N ≥ 1` and a gateway failing on every
attempt, `send_to_dapnet_pocsag` performs exactly `N` attempts with
`N - 1` waits of `retry_delay * 2 ^ attemptIndex` seconds between
consecutive attempts, then reports failure and stops; and with
`max_retries = 3` against a gateway failing twice then succeeding, it
performs exactly 3 attempts, 2 waits of increasing duration, and
reports success. -/
theorem claim3_retry_policy (cs tg text cid : String) (d N : Nat)
    (hN : 1 ≤ N) (hd : 0 < d)
    (g : Nat → Bool) (hfail : ∀ i, g i = false)
    (g3 : Nat → Bool) (h0 : g3 0 = false) (h1 : g3 1 = false)
    (h2 : g3 2 = true) :
    ((send_to_dapnet_pocsag ⟨cs, tg, N, d⟩ g text cid).attempts = N ∧
     (send_to_dapnet_pocsag ⟨cs, tg, N, d⟩ g text cid).sleeps.length = N - 1 ∧
     (∀ i (hi : i < (send_to_dapnet_pocsag ⟨cs, tg, N, d⟩ g text cid).sleeps.length),
        (send_to_dapnet_pocsag ⟨cs, tg, N, d⟩ g text cid).sleeps[i] = d * 2 ^ i) ∧
     (send_to_dapnet_pocsag ⟨cs, tg, N, d⟩ g text cid).success = false) ∧
    ((send_to_dapnet_pocsag ⟨cs, tg, 3, d⟩ g3 text cid).attempts = 3 ∧
     (send_to_dapnet_pocsag ⟨cs, tg, 3, d⟩ g3 text cid).sleeps = [d * 2 ^ 0, d * 2 ^ 1] ∧
     d * 2 ^ 0 < d * 2 ^ 1 ∧
     (send_to_dapnet_pocsag ⟨cs, tg, 3, d⟩ g3 text cid).success = true) := by
  constructor
  · have hloop := sendLoop_allFail g d N hfail N 0 (by omega)
    rw [← List.range_eq_range'] at hloop
    unfold send_to_dapnet_pocsag
    rw [hloop]
    refine ⟨rfl, by simp, ?_, rfl⟩
    intro i hi
    simp only [List.length_map, List.length_range'] at hi
    simp [List.getElem_map, List.getElem_range']
  · have hr3 : List.range 3 = [0, 1, 2] := by decide
    unfold send_to_dapnet_pocsag
    rw [hr3]
    rw [sendLoop, h0, if_neg (by simp), if_pos (by norm_num),
        sendLoop, h1, if_neg (by simp), if_pos (by norm_num),
        sendLoop, h2, if_pos rfl]
    refine ⟨rfl, rfl, ?_, rfl⟩
    have : d * 2 ^ 0 = d := by ring
    have h2' : d * 2 ^ 1 = d * 2 := by ring
    omega

/-- Closed instance of `claim3_retry_policy`: two attempts and one wait
for an always-failing gateway with `max_retries = 2`, and the
3-attempt success trace. -/
theorem claim3_retry_policy_witness :
    (send_to_dapnet_pocsag ⟨"N0CALL", "dl-all", 2, 5⟩ (fun _ => false) "hi" "!2a").attempts = 2 ∧
    (send_to_dapnet_pocsag ⟨"N0CALL", "dl-all", 2, 5⟩ (fun _ => false) "hi" "!2a").success = false ∧
    (send_to_dapnet_pocsag ⟨"N0CALL", "dl-all", 3, 5⟩ (fun i => decide (2 ≤ i)) "hi" "!2a").attempts = 3 ∧
    (send_to_dapnet_pocsag ⟨"N0CALL", "dl-all", 3, 5⟩ (fun i => decide (2 ≤ i)) "hi" "!2a").sleeps = [5 * 2 ^ 0, 5 * 2 ^ 1] ∧
    (send_to_dapnet_pocsag ⟨"N0CALL", "dl-all", 3, 5⟩ (fun i => decide (2 ≤ i)) "hi" "!2a").success = true := by
  have h := claim3_retry_policy "N0CALL" "dl-all" "hi" "!2a" 5 2
    (by decide) (by decide) (fun _ => false) (fun _ => rfl)
    (fun i => decide (2 ≤ i)) (by decide) (by decide) (by decide)
  exact ⟨h.1.1, h.1.2.2.2, h.2.1, h.2.2.1, h.2.2.2.2⟩

/-- C2 counterexample: the text transmitted for the body `"a_b."`
(containing the escape-set characters `_` and `.`) is the body itself,
not its backslash-escaped form — no sanitization happens before
transmission. -/
theorem claim2_counterexample :
    (send_to_dapnet_pocsag ⟨"N0CALL", "dl-all", 5, 5⟩ (fun _ => true)
        "a_b." "!2a").payload.text ≠ sanitize_spec "a_b." ∧
    (send_to_dapnet_pocsag ⟨"N0CALL", "dl-all", 5, 5⟩ (fun _ => true)
        "a_b." "!2a").payload.text = "a_b." := by
  constructor
  · decide
  · rfl

/-- C2 (amended): `send_to_dapnet_pocsag` applies no character
escaping at all — the `text` field of the JSON payload it transmits is
exactly the message body it was given, for every body, configuration
and gateway behaviour. -/
theorem claim2_no_escaping (cfg : Config) (g : Nat → Bool)
    (text_payload client_id : String) :
    (send_to_dapnet_pocsag cfg g text_payload client_id).payload.text =
      text_payload := rfl

/-- C5 counterexample: for the body `"hello"` from sender label
`"!c0ffee"`, the transmitted text carries no sender line — it equals
neither the spec's no-display-name form nor any display-name form
(shown for display name `"Alice"`). -/
theorem claim5_counterexample :
    (send_to_dapnet_pocsag ⟨"N0CALL", "dl-all", 5, 5⟩ (fun _ => true)
        "hello" "!c0ffee").payload.text ≠
      senderHeader_spec none "!c0ffee" ++ sanitize_spec "hello" ∧
    (send_to_dapnet_pocsag ⟨"N0CALL", "dl-all", 5, 5⟩ (fun _ => true)
        "hello" "!c0ffee").payload.text ≠
      senderHeader_spec (some "Alice") "!c0ffee" ++ sanitize_spec "hello" := by
  constructor
  · decide
  · decide

/-- C5 (amended): no sender line is prepended — the transmitted text is
the bare message body, and the sender label (`client_id`) has no
influence on the transmission at all (it is only logged); in particular
the Node Directory is never consulted for a display name. -/
theorem claim5_no_sender_line (cfg : Config) (g : Nat → Bool)
    (text_payload client_id client_id' : String) :
    (send_to_dapnet_pocsag cfg g text_payload client_id).payload.text =
      text_payload ∧
    send_to_dapnet_pocsag cfg g text_payload client_id =
      send_to_dapnet_pocsag cfg g text_payload client_id' := ⟨rfl, rfl⟩

theorem on_message_isSome (ext : Externals) (key : String) (env : ServiceEnvelope) :
    (on_message ext key (some env)).isSome = ingressFilter env.packet := by
  show (if ingressFilter env.packet then some (decode_encrypted ext env.packet key)
        else none).isSome = ingressFilter env.packet
  cases h : ingressFilter env.packet <;> simp [h]

/-- C4: `on_message` hands the inner packet to `decode_encrypted`
exactly when its destination is the broadcast address, it carries an
encrypted body, and it does not already carry a decoded body; in
particular a packet whose destination differs from the broadcast
address never reaches the decryptor (nor does an unparseable
envelope). -/
theorem claim4_ingress_filter (ext : Externals) (key : String)
    (env : ServiceEnvelope) :
    ((on_message ext key (some env)).isSome ↔
      (env.packet.toNode = BROADCAST_NUM ∧
        hasEncryptedField env.packet = true ∧
        hasDecodedField env.packet = false)) ∧
    (env.packet.toNode ≠ BROADCAST_NUM → on_message ext key (some env) = none) ∧
    on_message ext key none = none := by
  refine ⟨?_, ?_, rfl⟩
  · rw [on_message_isSome]
    unfold ingressFilter
    simp [Bool.and_eq_true, beq_iff_eq, Bool.not_eq_true', and_assoc]
  · intro hne
    have hf : ¬ ingressFilter env.packet = true := by
      intro hft
      unfold ingressFilter at hft
      simp only [Bool.and_eq_true, beq_iff_eq] at hft
      exact hne hft.1.1
    show (if ingressFilter env.packet then some (decode_encrypted ext env.packet key)
          else none) = none
    rw [if_neg hf]

/-- Closed instance of `claim4_ingress_filter`: a packet addressed to
node `7` (not broadcast) is not handed to the decryptor, and a
broadcast-addressed encrypted packet is. -/
theorem claim4_ingress_filter_witness :
    on_message ⟨fun _ => none, fun _ _ ct => ct, fun _ => none⟩ "k"
      (some ⟨⟨1, 2, 7, some (.encrypted [1])⟩⟩) = none ∧
    (on_message ⟨fun _ => none, fun _ _ ct => ct, fun _ => none⟩ "k"
      (some ⟨⟨1, 2, 4294967295, some (.encrypted [1])⟩⟩)).isSome = true := by
  constructor
  · exact (claim4_ingress_filter ⟨fun _ => none, fun _ _ ct => ct, fun _ => none⟩
      "k" ⟨⟨1, 2, 7, some (.encrypted [1])⟩⟩).2.1 (by decide)
  · exact (claim4_ingress_filter ⟨fun _ => none, fun _ _ ct => ct, fun _ => none⟩
      "k" ⟨⟨1, 2, 4294967295, some (.encrypted [1])⟩⟩).1.mpr ⟨by decide, rfl, rfl⟩

/-- C6 counterexample: a broadcast packet whose decrypted payload
parses to port `NODEINFO_APP` is processed successfully (`ok = true`)
yet performs no Node Directory upsert at all — the body is never parsed
into `{id, long_name, short_name}` and nothing is written. -/
theorem claim6_counterexample :
    (decode_encrypted
      ⟨fun _ => some (List.replicate 32 0), fun _ _ ct => ct,
        fun _ => some ⟨NODEINFO_APP, [8, 42]⟩⟩
      ⟨7, 9, BROADCAST_NUM, some (.encrypted [1, 2, 3])⟩ "AQ==").ok = true ∧
    (decode_encrypted
      ⟨fun _ => some (List.replicate 32 0), fun _ _ ct => ct,
        fun _ => some ⟨NODEINFO_APP, [8, 42]⟩⟩
      ⟨7, 9, BROADCAST_NUM, some (.encrypted [1, 2, 3])⟩ "AQ==").upserts = [] := by
  constructor
  · decide
  · decide

/-- C6 (amended): the message pipeline never writes to the Node
Directory — `decode_encrypted` performs no upsert for any packet, any
key and any external behaviour (NODE_INFO payloads, like every
non-text port, are decoded into the packet and otherwise ignored). -/
theorem claim6_no_upsert (ext : Externals) (p : MeshPacket) (key : String) :
    (decode_encrypted ext p key).upserts = [] := by
  unfold decode_encrypted
  repeat' split
  all_goals rfl

/-- C7 counterexample: `decode_encrypted` is not a pure function of
packet and key — on a concrete successfully-decrypted text packet it
mutates its packet argument (the `decoded` field is populated, replacing
the `encrypted` variant) and it itself triggers a forward to the paging
gateway. -/
theorem claim7_counterexample :
    (decode_encrypted
      ⟨fun _ => some [0], fun _ _ ct => ct, fun _ => some ⟨TEXT_MESSAGE_APP, [104, 105]⟩⟩
      ⟨1, 2, BROADCAST_NUM, some (.encrypted [0])⟩ "AA==").packet ≠
      ⟨1, 2, BROADCAST_NUM, some (.encrypted [0])⟩ ∧
    (decode_encrypted
      ⟨fun _ => some [0], fun _ _ ct => ct, fun _ => some ⟨TEXT_MESSAGE_APP, [104, 105]⟩⟩
      ⟨1, 2, BROADCAST_NUM, some (.encrypted [0])⟩ "AA==").forwards ≠ [] := by
  constructor
  · decide
  · decide

/-- C7 (amended): `decode_encrypted` is not pure: whenever decryption
and parsing succeed it overwrites the packet's payload oneof with the
decoded data (so the packet its caller holds has changed), returns only
a success boolean, and for text payloads it itself invokes the DAPNET
forwarder instead of leaving that to the caller. -/
theorem claim7_impure (ext : Externals) (p : MeshPacket) (key : String)
    (ct key_bytes : List Nat) (data : DataMsg)
    (hvar : p.payloadVariant = some (.encrypted ct))
    (hct : ct.isEmpty = false)
    (hb : ext.b64decode key = some key_bytes)
    (hid : p.id < 2 ^ 64) (hfrom : p.fromNode < 2 ^ 64)
    (hparse : ext.parseData (ext.aesCtrDecrypt key_bytes (buildNonce p) ct) =
      some data) :
    (decode_encrypted ext p key).packet =
      { p with payloadVariant := some (.decoded data) } ∧
    (decode_encrypted ext p key).packet ≠ p ∧
    (decode_encrypted ext p key).ok = true ∧
    (∀ text, data.portnum = TEXT_MESSAGE_APP →
      utf8Decode data.payload = some text →
      (decode_encrypted ext p key).forwards =
        [(text, create_node_id (some p.fromNode))]) := by
  have hdec : decode_encrypted ext p key =
      (if data.portnum = TEXT_MESSAGE_APP then
         match utf8Decode data.payload with
         | some text_payload =>
           { packet := { p with payloadVariant := some (.decoded data) },
             forwards := [(text_payload, create_node_id (some p.fromNode))],
             textError := false, upserts := [], ok := true }
         | none =>
           { packet := { p with payloadVariant := some (.decoded data) },
             forwards := [], textError := true, upserts := [], ok := true }
       else
         { packet := { p with payloadVariant := some (.decoded data) },
           forwards := [], textError := false, upserts := [], ok := true }) := by
    unfold decode_encrypted
    rcases p with ⟨pid, pfrom, pto, pv⟩
    simp only at hvar
    subst hvar
    simp only [hct, Bool.false_eq_true, if_false, hb,
      if_pos (⟨hid, hfrom⟩ : _ ∧ _), hparse]
  have hne : ({ p with payloadVariant := some (.decoded data) } : MeshPacket) ≠ p := by
    intro h
    have := congrArg MeshPacket.payloadVariant h
    rw [hvar] at this
    simp at this
  refine ⟨?_, ?_, ?_, ?_⟩
  · rw [hdec]; split
    · split <;> rfl
    · rfl
  · rw [hdec]
    split
    · split <;> exact hne
    · exact hne
  · rw [hdec]; split
    · split <;> rfl
    · rfl
  · intro text hport hutf
    rw [hdec, if_pos hport, hutf]

/-- Closed instance of `claim7_impure`: a concrete successful text
decode populates the decoded oneof and emits one forward. -/
theorem claim7_impure_witness :
    (decode_encrypted
      ⟨fun _ => some [7], fun _ _ ct => ct, fun _ => some ⟨TEXT_MESSAGE_APP, [104]⟩⟩
      ⟨3, 4, BROADCAST_NUM, some (.encrypted [9])⟩ "Bw==").packet =
      ⟨3, 4, BROADCAST_NUM, some (.decoded ⟨TEXT_MESSAGE_APP, [104]⟩)⟩ ∧
    (decode_encrypted
      ⟨fun _ => some [7], fun _ _ ct => ct, fun _ => some ⟨TEXT_MESSAGE_APP, [104]⟩⟩
      ⟨3, 4, BROADCAST_NUM, some (.encrypted [9])⟩ "Bw==").forwards =
      [("h", create_node_id (some 4))] := by
  have h := claim7_impure
    ⟨fun _ => some [7], fun _ _ ct => ct, fun _ => some ⟨TEXT_MESSAGE_APP, [104]⟩⟩
    ⟨3, 4, BROADCAST_NUM, some (.encrypted [9])⟩ "Bw==" [9] [7]
    ⟨TEXT_MESSAGE_APP, [104]⟩ rfl rfl rfl (by norm_num) (by norm_num) rfl
  exact ⟨h.1, h.2.2.2 "h" rfl rfl⟩

/-- C9: a successfully decrypted payload on the text-message port whose
body is not valid UTF-8 produces no forward to the paging gateway: the
decode error is reported (logged) and the handler still returns
`True`. -/
theorem claim9_invalid_text (ext : Externals) (p : MeshPacket) (key : String)
    (ct key_bytes : List Nat) (data : DataMsg)
    (hvar : p.payloadVariant = some (.encrypted ct))
    (hct : ct.isEmpty = false)
    (hb : ext.b64decode key = some key_bytes)
    (hid : p.id < 2 ^ 64) (hfrom : p.fromNode < 2 ^ 64)
    (hparse : ext.parseData (ext.aesCtrDecrypt key_bytes (buildNonce p) ct) =
      some data)
    (hport : data.portnum = TEXT_MESSAGE_APP)
    (hutf : utf8Decode data.payload = none) :
    (decode_encrypted ext p key).forwards = [] ∧
    (decode_encrypted ext p key).textError = true ∧
    (decode_encrypted ext p key).ok = true := by
  have hdec : decode_encrypted ext p key =
      { packet := { p with payloadVariant := some (.decoded data) },
        forwards := [], textError := true, upserts := [], ok := true } := by
    unfold decode_encrypted
    rcases p with ⟨pid, pfrom, pto, pv⟩
    simp only at hvar
    subst hvar
    simp only [hct, Bool.false_eq_true, if_false, hb,
      if_pos (⟨hid, hfrom⟩ : _ ∧ _), hparse]
    rw [if_pos hport, hutf]
  rw [hdec]
  exact ⟨rfl, rfl, rfl⟩

/-- Closed instance of `claim9_invalid_text`: the single byte `0xFF` is
not valid UTF-8, so a text payload carrying it is not forwarded. -/
theorem claim9_invalid_text_witness :
    (decode_encrypted
      ⟨fun _ => some [1], fun _ _ ct => ct, fun _ => some ⟨TEXT_MESSAGE_APP, [255]⟩⟩
      ⟨5, 6, BROADCAST_NUM, some (.encrypted [2])⟩ "AQ==").forwards = [] ∧
    (decode_encrypted
      ⟨fun _ => some [1], fun _ _ ct => ct, fun _ => some ⟨TEXT_MESSAGE_APP, [255]⟩⟩
      ⟨5, 6, BROADCAST_NUM, some (.encrypted [2])⟩ "AQ==").textError = true := by
  have h := claim9_invalid_text
    ⟨fun _ => some [1], fun _ _ ct => ct, fun _ => some ⟨TEXT_MESSAGE_APP, [255]⟩⟩
    ⟨5, 6, BROADCAST_NUM, some (.encrypted [2])⟩ "AQ==" [2] [1]
    ⟨TEXT_MESSAGE_APP, [255]⟩ rfl rfl rfl (by norm_num) (by norm_num) rfl rfl
    (by decide)
  exact ⟨h.1, h.2.1⟩

/-- C1: the decryption nonce is exactly the 8-byte little-endian
encoding of the packet id followed by the 8-byte little-endian encoding
of the sender node id — 16 bytes in total, whose two halves decode back
to the packet id and the sender id — and `decode_encrypted` consults the
counter-mode cipher only at this nonce: two ciphers agreeing on
`buildNonce p` (for the packet's encrypted bytes) make the whole call
agree. -/
theorem claim1_nonce (p : MeshPacket) (hid : p.id < 2 ^ 64)
    (hfrom : p.fromNode < 2 ^ 64) (ext1 ext2 : Externals) (key : String)
    (hb : ext1.b64decode = ext2.b64decode)
    (hp : ext1.parseData = ext2.parseData)
    (hagree : ∀ kb, ext1.aesCtrDecrypt kb (buildNonce p) (encryptedBytes p) =
        ext2.aesCtrDecrypt kb (buildNonce p) (encryptedBytes p)) :
    buildNonce p = natToLEBytes p.id 8 ++ natToLEBytes p.fromNode 8 ∧
    (buildNonce p).length = 16 ∧
    (buildNonce p).take 8 = natToLEBytes p.id 8 ∧
    (buildNonce p).drop 8 = natToLEBytes p.fromNode 8 ∧
    leBytesVal ((buildNonce p).take 8) = p.id ∧
    leBytesVal ((buildNonce p).drop 8) = p.fromNode ∧
    (∀ b ∈ buildNonce p, b < 256) ∧
    decode_encrypted ext1 p key = decode_encrypted ext2 p key := by
  have hlen : (natToLEBytes p.id 8).length = 8 := natToLEBytes_length _ _
  have htake : (buildNonce p).take 8 = natToLEBytes p.id 8 := by
    unfold buildNonce
    exact List.take_left' hlen
  have hdrop : (buildNonce p).drop 8 = natToLEBytes p.fromNode 8 := by
    unfold buildNonce
    exact List.drop_left' hlen
  refine ⟨rfl, ?_, htake, hdrop, ?_, ?_, ?_, ?_⟩
  · unfold buildNonce
    rw [List.length_append, natToLEBytes_length, natToLEBytes_length]
  · rw [htake, leBytesVal_natToLEBytes]
    exact Nat.mod_eq_of_lt (lt_of_lt_of_le hid (by norm_num))
  · rw [hdrop, leBytesVal_natToLEBytes]
    exact Nat.mod_eq_of_lt (lt_of_lt_of_le hfrom (by norm_num))
  · intro b hbmem
    unfold buildNonce at hbmem
    rw [List.mem_append] at hbmem
    rcases hbmem with h | h
    · exact natToLEBytes_lt _ _ _ h
    · exact natToLEBytes_lt _ _ _ h
  · obtain ⟨pid, pfrom, pto, pv⟩ := p
    rcases pv with _ | (ct | d)
    · rfl
    · have hct : encryptedBytes ⟨pid, pfrom, pto, some (.encrypted ct)⟩ = ct := rfl
      rw [hct] at hagree
      unfold decode_encrypted
      rw [hb]
      rcases hkb : ext2.b64decode key with _ | kb
      · rfl
      · have := hagree kb
        dsimp only
        rw [this, hp]
    · rfl

/-- Closed instance of `claim1_nonce`: the nonce for packet id
`305419896` from node `43981` is 16 bytes and its halves decode back to
the two ids. -/
theorem claim1_nonce_witness :
    (buildNonce ⟨305419896, 43981, 4294967295, some (.encrypted [1])⟩).length = 16 ∧
    leBytesVal ((buildNonce ⟨305419896, 43981, 4294967295,
      some (.encrypted [1])⟩).take 8) = 305419896 ∧
    leBytesVal ((buildNonce ⟨305419896, 43981, 4294967295,
      some (.encrypted [1])⟩).drop 8) = 43981 := by
  have h := claim1_nonce ⟨305419896, 43981, 4294967295, some (.encrypted [1])⟩
    (by norm_num) (by norm_num) ⟨fun _ => none, fun _ _ ct => ct, fun _ => none⟩
    ⟨fun _ => none, fun _ _ ct => ct, fun _ => none⟩ "k" rfl rfl (fun _ => rfl)
  exact ⟨h.2.1, h.2.2.2.2.1, h.2.2.2.2.2.1⟩

/-- C8: the node id label is `"!unknown"` when the numeric id is
absent, and otherwise `!` followed by the lowercase hexadecimal
representation of the id — every character is a lowercase hex digit (so
no `0x` appears), there is no leading zero unless the id is zero, and
reading the digits back as base-16 recovers the id exactly. -/
theorem claim8_node_id_label (n : Nat) :
    create_node_id none = "!unknown" ∧
    (create_node_id (some n)).data = '!' :: (toHex n).data ∧
    (∀ c ∈ (toHex n).data, c ∈ hexAlphabet) ∧
    (0 < n → (toHex n).data.head? ≠ some '0') ∧
    (n = 0 → toHex n = "0") ∧
    hexStrVal (toHex n).data = n := by
  refine ⟨rfl, ?_, toHex_chars_lower n, toHex_no_leading_zero n, ?_, toHex_val n⟩
  · show ("!" ++ toHex n).data = '!' :: (toHex n).data
    rw [String.data_append]
    rfl
  · intro h
    subst h
    rfl

/-- Closed instance of `claim8_node_id_label`: the label for node
`3233923779` is `!` + lowercase hex with no leading zero, recovering
the id. -/
theorem claim8_node_id_label_witness :
    create_node_id none = "!unknown" ∧
    (create_node_id (some 3233923779)).data = '!' :: (toHex 3233923779).data ∧
    (toHex 3233923779).data.head? ≠ some '0' ∧
    hexStrVal (toHex 3233923779).data = 3233923779 := by
  have h := claim8_node_id_label 3233923779
  exact ⟨h.1, h.2.1, h.2.2.2.1 (by norm_num), h.2.2.2.2.2⟩

theorem b64urlToStd_std (c : Char) (h : isUrlSafeB64Char c = true) :
    isStdB64Char (b64urlToStd c) = true := by
  unfold isUrlSafeB64Char at h
  unfold b64urlToStd
  by_cases h1 : c = '-'
  · subst h1; decide
  · by_cases h2 : c = '_'
    · subst h2; decide
    · rw [if_neg h1, if_neg h2]
      simp only [Bool.or_eq_true, decide_eq_true_eq] at h
      rcases h with (h | h) | h
      · exact h
      · exact absurd h h1
      · exact absurd h h2

theorem takeWhile_replicate_append (a : Char) (p : Char → Bool)
    (hpa : p a = true) (k : Nat) (l : List Char) :
    (List.replicate k a ++ l).takeWhile p =
      List.replicate k a ++ l.takeWhile p := by
  induction k with
  | zero => simp
  | succ k ih =>
    rw [List.replicate_succ, List.cons_append, List.takeWhile_cons_of_pos hpa,
      ih, List.cons_append]

theorem takeWhile_eq_nil_of_all_std (l : List Char)
    (h : ∀ c ∈ l, isStdB64Char c = true) :
    l.takeWhile (fun c => c == '=') = [] := by
  cases l with
  | nil => rfl
  | cons c l =>
    have hc := h c (List.mem_cons_self c l)
    have hne : (c == '=') = false := by
      by_cases he : c = '='
      · rw [he] at hc
        exact absurd hc (by decide)
      · exact beq_eq_false_iff_ne.mpr he
    rw [List.takeWhile_cons_of_neg (by rw [hne]; decide)]

/-- C10: `prepare_encryption_key` first right-pads the configured key
string with `=` to the next multiple of 4 and then maps `-` to `+` and
`_` to `/` pointwise (the padding is unaffected since `=` is fixed by
the substitution); the result's length is a multiple of 4, and whenever
the input is drawn from the standard or URL-safe base64 alphabet with a
length that is a valid unpadded-base64 length (`len % 4 ≠ 1`), the
prepared key is a string `base64.b64decode` accepts. -/
theorem claim10_key_preparation (key : String) :
    (prepare_encryption_key key).data =
      key.data.map b64urlToStd ++
        List.replicate (b64PadLen key.data.length) '=' ∧
    (prepare_encryption_key key).data.length % 4 = 0 ∧
    (key.data.all isUrlSafeB64Char = true → key.data.length % 4 ≠ 1 →
      isValidB64 (prepare_encryption_key key) = true) := by
  have hsplit : (prepare_encryption_key key).data =
      key.data.map b64urlToStd ++
        List.replicate (b64PadLen key.data.length) '=' := by
    show (key.data ++ List.replicate (b64PadLen key.data.length) '=').map
        b64urlToStd = _
    rw [List.map_append, List.map_replicate]
    rfl
  have hlen : (prepare_encryption_key key).data.length % 4 = 0 := by
    rw [hsplit, List.length_append, List.length_map, List.length_replicate]
    unfold b64PadLen
    omega
  refine ⟨hsplit, hlen, ?_⟩
  intro hall hmod
  have hallstd : ∀ c ∈ key.data.map b64urlToStd, isStdB64Char c = true := by
    intro c hc
    rw [List.mem_map] at hc
    obtain ⟨c0, hc0, rfl⟩ := hc
    exact b64urlToStd_std c0 (by
      rw [List.all_eq_true] at hall
      exact hall c0 hc0)
  have hpad2 : b64PadLen key.data.length ≤ 2 := by
    unfold b64PadLen
    omega
  unfold isValidB64
  rw [hsplit]
  have hrev : (key.data.map b64urlToStd ++
      List.replicate (b64PadLen key.data.length) '=').reverse =
      List.replicate (b64PadLen key.data.length) '=' ++
        (key.data.map b64urlToStd).reverse := by
    rw [List.reverse_append, List.reverse_replicate]
  rw [hrev, takeWhile_replicate_append '=' (fun c => c == '=') (by decide),
    takeWhile_eq_nil_of_all_std _ (by
      intro c hc
      rw [List.mem_reverse] at hc
      exact hallstd c hc)]
  rw [List.append_nil, List.length_replicate]
  have hlen2 : (key.data.map b64urlToStd ++
      List.replicate (b64PadLen key.data.length) '=').length =
      key.data.length + b64PadLen key.data.length := by
    rw [List.length_append, List.length_map, List.length_replicate]
  rw [hlen2]
  show ((key.data.length + b64PadLen key.data.length) % 4 == 0 &&
      decide (b64PadLen key.data.length ≤ 2) &&
      (List.take (key.data.length + b64PadLen key.data.length - b64PadLen key.data.length)
        (List.map b64urlToStd key.data ++
          List.replicate (b64PadLen key.data.length) '=')).all isStdB64Char) = true
  have htake : (key.data.map b64urlToStd ++
      List.replicate (b64PadLen key.data.length) '=').take
        (key.data.length + b64PadLen key.data.length - b64PadLen key.data.length) =
      key.data.map b64urlToStd := by
    rw [Nat.add_sub_cancel]
    exact List.take_left' (by rw [List.length_map])
  rw [htake]
  have h1 : (key.data.length + b64PadLen key.data.length) % 4 == 0 := by
    unfold b64PadLen
    simp only [Nat.beq_eq_true_eq]
    omega
  have h2 : decide (b64PadLen key.data.length ≤ 2) = true :=
    decide_eq_true hpad2
  have h3 : (key.data.map b64urlToStd).all isStdB64Char = true := by
    rw [List.all_eq_true]
    exact hallstd
  rw [h3]
  simp only [Bool.and_eq_true]
  exact ⟨⟨h1, h2⟩, trivial⟩

/-- Closed instance of `claim10_key_preparation`: the URL-safe unpadded
key `"abc-_X"` is prepared into a valid base64 string of padded
length. -/
theorem claim10_key_preparation_witness :
    isValidB64 (prepare_encryption_key "abc-_X") = true ∧
    (prepare_encryption_key "abc-_X").data.length % 4 = 0 := by
  have h := claim10_key_preparation "abc-_X"
  exact ⟨h.2.2 (by decide) (by decide), h.2.1⟩

end MqttToPocsag
